import Mathlib

/-!
Verification of the Knowledge-Organizer ingestion pipeline.

This file shallowly embeds the two Python source files of the repository
(`src/main.py` and `src/agents/knowledge_agents.py`) and settles the frozen
claims about them.  The text-generation capability (`generate_text`) is an
external oracle: each call site receives its outcome as an explicit
parameter, resolved by the environment.  Python exceptions are modelled with
`Except String`; an uncaught exception aborts the surrounding computation.
-/

set_option autoImplicit false

/-- Leading-segment test: `isSeg v s` is true iff `v` is an initial segment
of `s`. -/
def isSeg : List Char → List Char → Bool
  | [], _ => true
  | _ :: _, [] => false
  | a :: as, b :: bs => (a = b) && isSeg as bs

/-- Contiguous-segment test: `isSubSeg v s` is true iff `v` occurs as a
contiguous segment of `s` (the empty list occurs in everything). -/
def isSubSeg : List Char → List Char → Bool
  | v, [] => v.isEmpty
  | v, b :: bs => isSeg v (b :: bs) || isSubSeg v bs

/-- `strIn needle hay` models the Python substring test `needle in hay`. -/
def strIn (needle hay : String) : Bool :=
  isSubSeg needle.toList hay.toList

/-- A flat JSON object with string values, as produced by `json.loads` on the
object-shaped replies the classifier prompt requests.  Keys are looked up
first-match, mirroring unique-keyed Python dicts. -/
abbrev JObj : Type := List (String × String)

/-- Dict lookup `j[k]` as an `Option`, first matching key. -/
def lookupJ (j : JObj) (k : String) : Option String :=
  (j.find? (fun kv => kv.1 == k)).map (fun kv => kv.2)

/-- Dict lookup `j[k]` raising `KeyError` when the key is absent, as Python
subscription does. -/
def getKey (j : JObj) (k : String) : Except String String :=
  match lookupJ j k with
  | some v => .ok v
  | none => .error ("KeyError: " ++ k)

/-- The classifier sentinel `{"level1": "Unclassified", ...}`
(`knowledge_agents.py`, returned on every classification failure path). -/
def sentinelCategory : JObj :=
  [("level1", "Unclassified"), ("level2", "Unclassified"), ("level3", "Unclassified")]

/-- `user_preferences` (`MemoryManager._load_memory`): the top-level category
vocabulary and the `preferred_level3` dict mapping a level2 name to the list
of level3 names seen under it. -/
structure Preferences where
  category_hierarchy : List String
  preferred_level3 : List (String × List String)
deriving DecidableEq

/-- Default preferences seeded by `MemoryManager._load_memory` when no
persisted state exists. -/
def initialPrefs : Preferences :=
  ⟨["Technology", "Life", "Work", "Study"], []⟩

/-- `session_status` state of the Preference Store. -/
structure SessionStatus where
  last_processed : String
  total_processed : Nat
deriving DecidableEq

/-- The Preference Store state (`MemoryManager.data`). -/
structure Memory where
  user_preferences : Preferences
  session_status : SessionStatus
deriving DecidableEq

def initialMemory : Memory := ⟨initialPrefs, ⟨"", 0⟩⟩

/-- `MemoryManager.update_session`: sets `last_processed` and increments
`total_processed` (persisted synchronously in the source). -/
def update_session (m : Memory) (doc_name : String) : Memory :=
  ⟨m.user_preferences, ⟨doc_name, m.session_status.total_processed + 1⟩⟩

/-- First-match lookup in `preferred_level3`, returning the stored list. -/
def alookup? (m : List (String × List String)) (k : String) : Option (List String) :=
  (m.find? (fun kv => kv.1 == k)).map (fun kv => kv.2)

/-- `preferred_level3[k]` viewed as a set of level3 names: absent key reads
as the empty collection. -/
def pl3Get (prefs : Preferences) (k : String) : List String :=
  (alookup? prefs.preferred_level3 k).getD []

/-- `ContentClassifierAgent.classify` lines 213-217: ensure the level2 key
exists (dict assignment appends a fresh key at the end) and append the level3
value to its list only when absent. -/
def registerPref (prefs : Preferences) (l2v l3v : String) : Preferences :=
  let m0 := prefs.preferred_level3
  let m1 := if (m0.find? (fun kv => kv.1 == l2v)).isSome then m0 else m0 ++ [(l2v, [])]
  let m2 := m1.map (fun kv =>
    if kv.1 == l2v then (kv.1, if l3v ∈ kv.2 then kv.2 else kv.2 ++ [l3v]) else kv)
  { prefs with preferred_level3 := m2 }

/-- Outcome of one classification call to `generate_text`, resolved through
the parsing branches of `ContentClassifierAgent.classify`:
* `noText` — `generate_text` returned `None` or an empty string
  (`if not response_text`), e.g. the mock backend;
* `direct j` — `json.loads` on the (fence-stripped) reply succeeds and yields
  the string-valued object `j`;
* `directOther` — `json.loads` succeeds but yields a non-object value (a
  list, number, ...): the key-validation loop then raises and the generic
  handler returns the sentinel;
* `recovered j` — `json.loads` raises `JSONDecodeError`, and the permissive
  regex fallback finds a brace-delimited fragment that parses to `j`
  (for example the reply `here: ("a": "b")` with braces);
* `failed` — direct parsing raises and the fallback finds nothing usable. -/
inductive Reply where
  | noText
  | direct (j : JObj)
  | directOther
  | recovered (j : JObj)
  | failed
deriving DecidableEq

/-- `ContentClassifierAgent.classify`.  The prompt construction and the raw
reply string are absorbed into the `Reply` oracle; the branching below
mirrors the source line by line.  Note that the `recovered` branch returns
the extracted fragment without validating it (source lines 223-229), while
the `direct` branch validates presence and truthiness of the three fields
(lines 208-211: `if key not in category or not category[key]: raise`) and
only then registers `level2 -> level3` (lines 213-217) before returning. -/
def classify (prefs : Preferences) (reply : Reply) : JObj × Preferences :=
  match reply with
  | .noText => (sentinelCategory, prefs)
  | .directOther => (sentinelCategory, prefs)
  | .failed => (sentinelCategory, prefs)
  | .recovered j => (j, prefs)
  | .direct j =>
    match lookupJ j "level1", lookupJ j "level2", lookupJ j "level3" with
    | some v1, some v2, some v3 =>
      if v1 ≠ "" ∧ v2 ≠ "" ∧ v3 ≠ "" then (j, registerPref prefs v2 v3)
      else (sentinelCategory, prefs)
    | _, _, _ => (sentinelCategory, prefs)

/-- A successful classification run as a fold over its replies: the
preference state threaded through consecutive `classify` calls. -/
def classifyRun (prefs : Preferences) (replies : List Reply) : Preferences :=
  replies.foldl (fun p r => (classify p r).2) prefs

/-- `preferred_level3`-wise inclusion: every level3 name recorded under any
level2 key in `p` is still recorded under that key in `q`. -/
def pl3Sub (p q : Preferences) : Prop :=
  ∀ k x, x ∈ pl3Get p k → x ∈ pl3Get q k

/-- A processed-document record as appended by `process_documents` and read
by `search_knowledge` / `reclassify_document`.  `category` is the raw
classifier result object. -/
structure DocumentRecord where
  id : String
  filename : String
  path : String
  category : JObj
  core_ideas : List String
  keywords : List String
  related_docs : List String
  processed_time : String
deriving DecidableEq

/-- The persisted knowledge base (`output_kb/knowledge_base.json`). -/
structure KnowledgeBase where
  documents : List DocumentRecord
  user_preferences : Preferences
deriving DecidableEq

def recordIds (kb : KnowledgeBase) : List String :=
  kb.documents.map (fun d => d.id)

/-- The shape `RelationExtractorAgent.extract` builds. -/
structure Extracted where
  core_ideas : List String
  keywords : List String
  related_docs : List String
deriving DecidableEq

/-- Outcome of the first generation call in `RelationExtractorAgent.extract`,
resolved through `json.loads` under the bare `except:` at line 254:
* `unparseable` — `generate_text` returned `None` or text `json.loads`
  rejects: the sentinel result dict is substituted;
* `ok ci kw` — the reply parses to the expected object with list-of-string
  fields `core_ideas := ci` and `keywords := kw`;
* `wrongShape` — the reply parses to a JSON value that is not such an object
  (for example the array `[1, 2, 3]`): `json.loads` succeeds, so no sentinel
  is substituted, and the later unguarded subscriptions
  `result['keywords']` (line 265) / `result["core_ideas"]` (line 277) raise
  an uncaught `TypeError`/`KeyError`. -/
inductive XReply where
  | unparseable
  | ok (core_ideas keywords : List String)
  | wrongShape
deriving DecidableEq

/-- `RelationExtractorAgent.extract`.  `rel` resolves the second generation
call (issued only when `all_docs` is non-empty): `some ids` when its reply
parses to a list of ids, `none` when it fails to parse (the inner
`try/except` then yields the empty relation list). -/
def extract (x : XReply) (rel : Option (List String)) (all_docs : List DocumentRecord) :
    Except String Extracted :=
  match x with
  | .unparseable =>
    .ok ⟨["No core ideas extracted"], ["No keywords extracted"],
         if all_docs.isEmpty then [] else rel.getD []⟩
  | .ok ci kw =>
    .ok ⟨ci, kw, if all_docs.isEmpty then [] else rel.getD []⟩
  | .wrongShape => .error "TypeError: extraction result lacks the expected list fields"

/-- `main.py` line 65-67: `category['level1'] == "Unclassified" or ...`, with
Python short-circuit evaluation and `KeyError` on a missing field. -/
def isCategoryInvalid (j : JObj) : Except String Bool :=
  match lookupJ j "level1" with
  | none => .error "KeyError: level1"
  | some v1 =>
    if v1 == "Unclassified" then .ok true
    else
      match lookupJ j "level2" with
      | none => .error "KeyError: level2"
      | some v2 =>
        if v2 == "Unclassified" then .ok true
        else
          match lookupJ j "level3" with
          | none => .error "KeyError: level3"
          | some v3 => .ok (v3 == "Unclassified")

/-- `main.py` line 69-70: singleton `core_ideas` whose element contains the
sentinel phrase. -/
def hasInvalidCoreIdeas (ex : Extracted) : Bool :=
  (ex.core_ideas.length == 1) && strIn "No core ideas extracted" (ex.core_ideas.headD "")

/-- `main.py` line 71. -/
def hasInvalidKeywords (ex : Extracted) : Bool :=
  (ex.keywords.length == 1) && strIn "No keywords extracted" (ex.keywords.headD "")

/-- The extraction/validation `while` loop of `process_documents`
(lines 52-88).  `attempt` counts extractor invocations already made
(the source's `retry_count`), `fuel` is `max_retries - retry_count`; the loop
is entered with `retry_count = 0 < max_retries = 3`.  Returns the total
number of extractor invocations together with the accepted result, or the
uncaught exception that ended the loop.  `xr`/`rr` resolve the generation
calls of attempt `i`. -/
def retryAux (category : JObj) (xr : Nat → XReply) (rr : Nat → Option (List String))
    (docs : List DocumentRecord) : Nat → Nat → Nat × Except String Extracted
  | 0, attempt => (attempt, .error "loop entered without remaining attempts")
  | fuel + 1, attempt =>
    match extract (xr attempt) (rr attempt) docs with
    | .error e => (attempt + 1, .error e)
    | .ok ex =>
      match isCategoryInvalid category with
      | .error e => (attempt + 1, .error e)
      | .ok bad =>
        if bad || hasInvalidCoreIdeas ex || hasInvalidKeywords ex then
          match fuel with
          | 0 => (attempt + 1, .ok ex)
          | f + 1 => retryAux category xr rr docs (f + 1) (attempt + 1)
        else (attempt + 1, .ok ex)

def runRetryLoop (category : JObj) (xr : Nat → XReply) (rr : Nat → Option (List String))
    (docs : List DocumentRecord) : Nat × Except String Extracted :=
  retryAux category xr rr docs 3 0

/-- Everything the environment decides about one candidate input file:
the parse outcome, the classification reply, the extraction and relation
replies per retry attempt, the uuid-derived id `doc_...` the run would
allocate, and the `processed_time` timestamp. -/
structure FileEnv where
  parse : Except String String
  creply : Reply
  xreplies : Nat → XReply
  relReplies : Nat → Option (List String)
  docId : String
  time : String

/-- The per-file loop of `process_documents` (lines 35-105): skip files whose
filename is already in the knowledge base, skip files whose parse raises,
classify once, run the bounded extraction retry loop, then append the new
record and update the session.  An exception escaping the retry loop aborts
the whole batch, as in the source (there is no surrounding handler). -/
def runFiles : List (String × FileEnv) → KnowledgeBase → Memory →
    Except String (KnowledgeBase × Memory)
  | [], kb, mem => .ok (kb, mem)
  | (fname, fe) :: rest, kb, mem =>
    if kb.documents.any (fun d => d.filename == fname) then
      runFiles rest kb mem
    else
      match fe.parse with
      | .error _ => runFiles rest kb mem
      | .ok _text =>
        let cp := classify mem.user_preferences fe.creply
        let mem' : Memory := ⟨cp.2, mem.session_status⟩
        match (runRetryLoop cp.1 fe.xreplies fe.relReplies kb.documents).2 with
        | .error e => .error e
        | .ok ex =>
          let newDoc : DocumentRecord :=
            ⟨fe.docId, fname, "input_docs/" ++ fname, cp.1,
             ex.core_ideas, ex.keywords, ex.related_docs, fe.time⟩
          runFiles rest ⟨kb.documents ++ [newDoc], kb.user_preferences⟩
            (update_session mem' fname)

/-- `process_documents`.  `existingKB` is the content of
`output_kb/knowledge_base.json` if it exists, `files` the directory listing
paired with per-file oracles.  The returned `Option KnowledgeBase` is what is
persisted on disk after the run: with no candidate files the function returns
early without dumping (the prior file, if any, is left as is).

Aliasing note (faithful to the Python object graph): in the fresh-KB branch
`knowledge_base["user_preferences"]` is the same object as
`memory.data["user_preferences"]`, and `classify` mutates it in place, so the
value dumped at the end is the final preference state; in the existing-KB
branch the loaded snapshot is a distinct object that nothing in the run ever
writes, so the dumped value is the loaded one. -/
def process_documents (existingKB : Option KnowledgeBase) (mem : Memory)
    (files : List (String × FileEnv)) : Except String (Option KnowledgeBase × Memory) :=
  let kb0 : KnowledgeBase :=
    match existingKB with
    | some kb => kb
    | none => ⟨[], mem.user_preferences⟩
  if files.isEmpty then .ok (existingKB, mem)
  else
    match runFiles files kb0 mem with
    | .error e => .error e
    | .ok (kb, memF) =>
      let dumped : KnowledgeBase :=
        match existingKB with
        | some _ => kb
        | none => ⟨kb.documents, memF.user_preferences⟩
      .ok (some dumped, memF)

/-- What ends up on disk after a run, `none` when the run raised or dumped
nothing over a previously absent file. -/
def persistedKB (r : Except String (Option KnowledgeBase × Memory)) : Option KnowledgeBase :=
  match r with
  | .ok (kb?, _) => kb?
  | .error _ => none

def finalMemory (r : Except String (Option KnowledgeBase × Memory)) (dflt : Memory) : Memory :=
  match r with
  | .ok (_, m) => m
  | .error _ => dflt

def runErrored (r : Except String (Option KnowledgeBase × Memory)) : Bool :=
  match r with
  | .ok _ => false
  | .error _ => true

def idsOfRun (r : Except String (Option KnowledgeBase × Memory)) : List String :=
  match persistedKB r with
  | some kb => recordIds kb
  | none => []

def startIds : Option KnowledgeBase → List String
  | none => []
  | some kb => recordIds kb

/-- The four observable outcomes of `search_knowledge`: the knowledge-base
file is missing, the explicit unsupported-type string, the explicit
no-results string, or the formatted list of matching records (kept here as
the `results` list the source builds, in knowledge-base order). -/
inductive SearchOutcome where
  | noKB
  | unsupported
  | noResults
  | found (docs : List DocumentRecord)
deriving DecidableEq

/-- `main.py` lines 127-131: the category branch tests the three category
fields in order with Python short-circuit `or`; subscription of a missing
field raises `KeyError`. -/
def categoryMatches (value : String) (d : DocumentRecord) : Except String Bool :=
  match getKey d.category "level1" with
  | .error e => .error e
  | .ok l1 =>
    if strIn value l1 then .ok true
    else
      match getKey d.category "level2" with
      | .error e => .error e
      | .ok l2 =>
        if strIn value l2 then .ok true
        else
          match getKey d.category "level3" with
          | .error e => .error e
          | .ok l3 => .ok (strIn value l3)

/-- `main.py` lines 132-141: the two inner loops of the keyword branch.  The
first loop appends the document and sets `skip` on the first matching
`core_idea`; the second appends on the first matching keyword only when
`skip` is still false.  Each loop `break`s after appending, so the document
is recorded at most once. -/
def keywordDocHits (value : String) (d : DocumentRecord) : List DocumentRecord :=
  let coreHit := d.core_ideas.any (fun c => strIn value c)
  let fromCore := if coreHit then [d] else []
  let fromKw := if d.keywords.any (fun k => strIn value k) && !coreHit then [d] else []
  fromCore ++ fromKw

/-- The match a keyword search is after: `value` occurs in some core idea or
in some keyword of the document. -/
def keywordPred (value : String) (d : DocumentRecord) : Bool :=
  d.core_ideas.any (fun c => strIn value c) || d.keywords.any (fun k => strIn value k)

/-- The `for doc in knowledge_base["documents"]` loop of `search_knowledge`
(lines 126-150) with its trailing empty-results check.  Note that the
`else: return "Unsupported search type..."` branch sits inside the loop
body, so it is reached only when at least one document is iterated over. -/
def searchLoop (qtype value : String) :
    List DocumentRecord → List DocumentRecord → Except String SearchOutcome
  | [], acc => .ok (if acc.isEmpty then .noResults else .found acc)
  | d :: rest, acc =>
    if qtype = "category" then
      match categoryMatches value d with
      | .error e => .error e
      | .ok m => searchLoop qtype value rest (acc ++ if m then [d] else [])
    else if qtype = "keyword" then
      searchLoop qtype value rest (acc ++ keywordDocHits value d)
    else if qtype = "related" then
      searchLoop qtype value rest (acc ++ if value ∈ d.related_docs then [d] else [])
    else .ok .unsupported

/-- `search_knowledge`.  `kbFile` is the persisted knowledge base, `none`
when `output_kb/knowledge_base.json` does not exist. -/
def search_knowledge (kbFile : Option KnowledgeBase) (qtype value : String) :
    Except String SearchOutcome :=
  match kbFile with
  | none => .ok .noKB
  | some kb => searchLoop qtype value kb.documents []

/-- Result of `reclassify_document`: the `(success, message-or-category)`
pair is reduced to the success flag; `kb` is the (possibly mutated) caller
knowledge base, `persisted` records whether the knowledge-base file was
rewritten, and `mem` the preference-store state after the call. -/
structure ReclassifyOutcome where
  ok : Bool
  kb : KnowledgeBase
  persisted : Bool
  mem : Memory
deriving DecidableEq

/-- The linear scan plus update of `reclassify_document` (lines 161-192).
`acc` carries the records already scanned past (the prefix with a different
filename).  On the first filename match: re-parse the stored path (failure
returns with nothing mutated), classify fresh, then overwrite exactly
`category` and `processed_time` of that record in place and persist. -/
def reclassifyGo (fname : String) (parse : String → Except String String)
    (creply : Reply) (mem : Memory) (now : String) (kb : KnowledgeBase) :
    List DocumentRecord → List DocumentRecord → ReclassifyOutcome
  | [], _acc => ⟨false, kb, false, mem⟩
  | d :: rest, acc =>
    if d.filename = fname then
      match parse d.path with
      | .error _ => ⟨false, kb, false, mem⟩
      | .ok _ =>
        let cp := classify mem.user_preferences creply
        ⟨true,
         ⟨acc ++ ({ d with category := cp.1, processed_time := now } :: rest),
          kb.user_preferences⟩,
         true,
         ⟨cp.2, mem.session_status⟩⟩
    else reclassifyGo fname parse creply mem now kb rest (acc ++ [d])

/-- `reclassify_document` (lines 161-192).  `parse` resolves
`DocumentParserAgent.parse` on the stored path, `creply` the classification
reply, `mem` the freshly loaded preference store, `now` the timestamp. -/
def reclassify_document (kb : KnowledgeBase) (fname : String)
    (parse : String → Except String String) (creply : Reply) (mem : Memory)
    (now : String) : ReclassifyOutcome :=
  reclassifyGo fname parse creply mem now kb kb.documents []

deriving instance DecidableEq for Except

/-! ## Concrete environments used by counterexamples and witnesses -/

/-- A file whose first extraction reply is valid JSON of the wrong shape
(for example the array `[1, 2, 3]`). -/
def feWrongShape : FileEnv :=
  ⟨.ok "Machine learning improves efficiency", .noText, fun _ => .wrongShape,
   fun _ => none, "doc_11111111", "2026-01-01 00:00:00"⟩

/-- A file that parses and extracts cleanly but is classified by the mock
backend (no completion, hence the sentinel category). -/
def feClean (docId : String) : FileEnv :=
  ⟨.ok "some text", .noText, fun _ => .ok ["idea one"] ["python"],
   fun _ => none, docId, "2026-01-01 00:00:00"⟩

/-- A file whose parse raises (for example an unsupported extension). -/
def feParseError : FileEnv :=
  ⟨.error "ValueError: Unsupported file format: .xyz", .noText,
   fun _ => .unparseable, fun _ => none, "doc_22222222", "2026-01-01 00:00:00"⟩

/-! ## C2 -/

def c2run : Except String (Option KnowledgeBase × Memory) :=
  process_documents none initialMemory [("a.txt", feWrongShape), ("b.txt", feClean "doc_b")]

/-- Claim C2 (code bug).  A failure scoped to a single file is supposed never
to abort the batch, but when the extraction reply for `a.txt` is valid JSON
of the wrong shape (such as `[1, 2, 3]`), the unguarded subscriptions in
`RelationExtractorAgent.extract` raise an uncaught error: the whole run
aborts, `b.txt` is never processed, and no knowledge base is written. -/
theorem C2_batch_abort_bug :
    runErrored c2run = true ∧ persistedKB c2run = none := by
  constructor <;> rfl

/-! ## C3 -/

/-- Claim C3 (code bug).  When direct parsing fails and the permissive
recovery step extracts an object-shaped fragment, `classify` returns that
fragment without any validation: on the reply whose recovered fragment is
the object with single key `"a"`, the result has no `level1` field at all,
so it is neither a full three-level category nor the sentinel. -/
theorem C3_recovery_bug :
    classify initialPrefs (Reply.recovered [("a", "b")]) = ([("a", "b")], initialPrefs)
    ∧ lookupJ [("a", "b")] "level1" = none
    ∧ ([("a", "b")] : JObj) ≠ sentinelCategory := by
  refine ⟨rfl, rfl, by decide⟩

/-! ## C1 -/

def c1run : Except String (Option KnowledgeBase × Memory) :=
  process_documents none initialMemory
    [("a.txt", feClean "doc_11111111"), ("b.txt", feClean "doc_11111111")]

/-- Claim C1, counterexample.  Record ids are allocated as
`doc_ + uuid4()[:8]` with no check against the ids already present, so when
the underlying generator yields the same eight-character prefix for two
files of one run (which nothing rules out), the resulting knowledge base
holds two records with the same id even though it started empty. -/
theorem C1_counterexample :
    idsOfRun c1run = ["doc_11111111", "doc_11111111"]
    ∧ ¬ (idsOfRun c1run).Nodup := by
  constructor
  · rfl
  · decide

lemma runFiles_ids_nodup (files : List (String × FileEnv)) :
    ∀ kb mem kb' mem', runFiles files kb mem = .ok (kb', mem') →
    (recordIds kb ++ files.map (fun p => p.2.docId)).Nodup →
    (recordIds kb').Nodup := by
  induction files with
  | nil =>
    intro kb mem kb' mem' h hnd
    simp only [runFiles, Except.ok.injEq, Prod.mk.injEq] at h
    obtain ⟨h1, _⟩ := h
    subst h1
    simpa using hnd
  | cons f rest ih =>
    intro kb mem kb' mem' h hnd
    obtain ⟨fname, fe⟩ := f
    simp only [runFiles] at h
    by_cases hdup : (kb.documents.any (fun d => d.filename == fname)) = true
    · rw [if_pos hdup] at h
      refine ih kb mem kb' mem' h (hnd.sublist ?_)
      exact List.Sublist.append_left (List.sublist_cons_self _ _) _
    · rw [if_neg hdup] at h
      cases hp : fe.parse with
      | error e =>
        rw [hp] at h
        refine ih kb mem kb' mem' h (hnd.sublist ?_)
        exact List.Sublist.append_left (List.sublist_cons_self _ _) _
      | ok t =>
        rw [hp] at h
        set cp := classify mem.user_preferences fe.creply with hcp
        cases hr : (runRetryLoop cp.1 fe.xreplies fe.relReplies kb.documents).2 with
        | error e => rw [hr] at h; cases h
        | ok ex =>
          rw [hr] at h
          refine ih _ _ _ _ h ?_
          have : recordIds ⟨kb.documents ++
              [⟨fe.docId, fname, "input_docs/" ++ fname, cp.1,
                ex.core_ideas, ex.keywords, ex.related_docs, fe.time⟩], kb.user_preferences⟩
              = recordIds kb ++ [fe.docId] := by
            simp [recordIds]
          rw [this, List.append_assoc]
          simpa using hnd

/-- Claim C1, amended.  The id allocated for a newly appended record is the
environment-supplied `doc_ + uuid4()[:8]` string, with no uniqueness check in
the code; provided those generated ids are pairwise distinct and distinct
from every id already in the knowledge base, all record ids of the resulting
knowledge base are pairwise distinct after the run. -/
theorem C1_amended_nodup_ids (exkb : Option KnowledgeBase) (mem : Memory)
    (files : List (String × FileEnv)) (kbP : KnowledgeBase) (memF : Memory)
    (h : process_documents exkb mem files = .ok (some kbP, memF))
    (hnd : (startIds exkb ++ files.map (fun p => p.2.docId)).Nodup) :
    (recordIds kbP).Nodup := by
  cases exkb with
  | none =>
    unfold process_documents at h
    by_cases hemp : files.isEmpty = true
    · rw [if_pos hemp] at h
      simp at h
    · rw [if_neg hemp] at h
      split at h
      · cases h
      · rename_i kb memR heq
        simp only [Except.ok.injEq, Prod.mk.injEq, Option.some.injEq] at h
        obtain ⟨hkb, _⟩ := h
        have hnod : (recordIds kb).Nodup := by
          refine runFiles_ids_nodup files _ mem kb memR heq ?_
          simpa [recordIds, startIds] using hnd
        subst hkb
        simpa [recordIds] using hnod
  | some kb0 =>
    unfold process_documents at h
    by_cases hemp : files.isEmpty = true
    · rw [if_pos hemp] at h
      simp only [Except.ok.injEq, Prod.mk.injEq, Option.some.injEq] at h
      obtain ⟨hkb, _⟩ := h
      subst hkb
      exact hnd.of_append_left
    · rw [if_neg hemp] at h
      split at h
      · cases h
      · rename_i kb memR heq
        simp only [Except.ok.injEq, Prod.mk.injEq, Option.some.injEq] at h
        obtain ⟨hkb, _⟩ := h
        have hnod : (recordIds kb).Nodup := by
          refine runFiles_ids_nodup files kb0 mem kb memR heq ?_
          simpa [startIds] using hnd
        subst hkb
        exact hnod

def c1wDocA : DocumentRecord :=
  ⟨"doc_a", "a.txt", "input_docs/a.txt", sentinelCategory,
   ["idea one"], ["python"], [], "2026-01-01 00:00:00"⟩

def c1wDocB : DocumentRecord :=
  ⟨"doc_b", "b.txt", "input_docs/b.txt", sentinelCategory,
   ["idea one"], ["python"], [], "2026-01-01 00:00:00"⟩

def c1wKB : KnowledgeBase := ⟨[c1wDocA, c1wDocB], initialPrefs⟩

def c1wMem : Memory := ⟨initialPrefs, ⟨"b.txt", 2⟩⟩

/-- Witness for C1: a concrete two-file run with distinct generated ids ends
in a knowledge base whose record ids are pairwise distinct. -/
theorem C1_witness : (recordIds c1wKB).Nodup :=
  C1_amended_nodup_ids none initialMemory
    [("a.txt", feClean "doc_a"), ("b.txt", feClean "doc_b")] c1wKB c1wMem
    (by rfl) (by decide)

/-! ## C4 -/

def c4kbEmpty : KnowledgeBase := ⟨[], initialPrefs⟩

/-- Claim C4, counterexample.  The unsupported-type return sits inside the
`for doc in ...` loop, so against a stored knowledge base whose documents
list is empty the loop body never runs: the query type `oops` yields the
no-results signal, not the unsupported-query-type signal. -/
theorem C4_counterexample :
    search_knowledge (some c4kbEmpty) "oops" "x" = .ok .noResults
    ∧ search_knowledge (some c4kbEmpty) "oops" "x" ≠ .ok .unsupported := by
  exact ⟨rfl, by decide⟩

/-- Claim C4, amended.  For every stored knowledge base whose documents list
is non-empty, a query type outside the three supported ones returns the
unsupported-query-type signal (the first loop iteration reaches the `else`
branch); with an empty documents list the no-results signal is returned
instead. -/
theorem C4_amended_unsupported (kb : KnowledgeBase) (qtype value : String)
    (hne : kb.documents ≠ [])
    (h1 : qtype ≠ "category") (h2 : qtype ≠ "keyword") (h3 : qtype ≠ "related") :
    search_knowledge (some kb) qtype value = .ok .unsupported := by
  cases hd : kb.documents with
  | nil => exact absurd hd hne
  | cons d rest =>
    simp only [search_knowledge, hd, searchLoop, if_neg h1, if_neg h2, if_neg h3]

def c4doc : DocumentRecord :=
  ⟨"doc_1", "a.txt", "input_docs/a.txt", sentinelCategory, ["idea"], ["kw"], [], "t"⟩

/-- Witness for C4: a concrete non-empty knowledge base and the unsupported
query type `zzz`. -/
theorem C4_witness :
    search_knowledge (some ⟨[c4doc], initialPrefs⟩) "zzz" "x" = .ok .unsupported :=
  C4_amended_unsupported ⟨[c4doc], initialPrefs⟩ "zzz" "x"
    (by decide) (by decide) (by decide) (by decide)

/-! ## C7 -/

lemma keywordDocHits_eq (value : String) (d : DocumentRecord) :
    keywordDocHits value d = if keywordPred value d then [d] else [] := by
  unfold keywordDocHits keywordPred
  cases hc : d.core_ideas.any (fun c => strIn value c) <;>
    cases hk : d.keywords.any (fun k => strIn value k) <;> simp [hc, hk]

lemma searchLoop_keyword (value : String) :
    ∀ (docs acc : List DocumentRecord),
      searchLoop "keyword" value docs acc =
        .ok (if (acc ++ docs.filter (keywordPred value)).isEmpty then .noResults
             else .found (acc ++ docs.filter (keywordPred value))) := by
  intro docs
  induction docs with
  | nil => intro acc; simp [searchLoop]
  | cons d rest ih =>
    intro acc
    rw [List.filter_cons]
    simp only [searchLoop, keywordDocHits_eq, String.reduceEq, if_false, reduceIte]
    rw [ih (acc ++ if keywordPred value d then [d] else [])]
    cases hp : keywordPred value d <;> simp [hp]

/-- Claim C7 (confirmed).  A keyword search returns exactly the documents for
which the value occurs in some core idea or some keyword, each such document
once, in knowledge-base order (the result list is the in-order filter of the
documents list); the empty filter yields the explicit no-results signal. -/
theorem C7_keyword_search (kb : KnowledgeBase) (value : String) :
    search_knowledge (some kb) "keyword" value =
      .ok (if (kb.documents.filter (keywordPred value)).isEmpty then .noResults
           else .found (kb.documents.filter (keywordPred value)))
    ∧ ∀ d : DocumentRecord,
        d ∈ kb.documents.filter (keywordPred value) ↔
          d ∈ kb.documents ∧
            ((∃ c ∈ d.core_ideas, strIn value c = true)
              ∨ (∃ k ∈ d.keywords, strIn value k = true)) := by
  constructor
  · simpa using searchLoop_keyword value kb.documents []
  · intro d
    simp [List.mem_filter, keywordPred, List.any_eq_true]

/-! ## C5 -/

def c5reply : Reply :=
  .direct [("level1", "Technology"), ("level2", "Programming Languages"), ("level3", "Python")]

def feC5 : FileEnv :=
  ⟨.ok "text", c5reply, fun _ => .ok ["idea"] ["python"], fun _ => none, "doc_c5", "t"⟩

def c5run : Except String (Option KnowledgeBase × Memory) :=
  process_documents (some ⟨[], initialPrefs⟩) initialMemory [("a.txt", feC5)]

/-- Claim C5, counterexample.  A run that starts from an already-existing
persisted knowledge base keeps the loaded `user_preferences` object and
never refreshes it: here the run classifies a document successfully, which
registers `Programming Languages -> Python` in the Preference Store, yet the
persisted knowledge base still carries the stale loaded snapshot. -/
theorem C5_counterexample :
    (persistedKB c5run).map (fun kb => kb.user_preferences) = some initialPrefs
    ∧ (finalMemory c5run initialMemory).user_preferences =
        registerPref initialPrefs "Programming Languages" "Python"
    ∧ initialPrefs ≠ registerPref initialPrefs "Programming Languages" "Python" := by
  refine ⟨rfl, rfl, by decide⟩

/-- Claim C5, amended.  When the run starts with no persisted knowledge base
(the fresh object aliases the Preference Store state and is dumped after the
loop), the persisted `user_preferences` equals the Preference Store state at
the end of the run; when the run starts from an existing persisted knowledge
base, the loaded snapshot is dumped unchanged instead. -/
theorem C5_amended_fresh_snapshot (mem : Memory) (files : List (String × FileEnv))
    (kbP : KnowledgeBase) (memF : Memory)
    (h : process_documents none mem files = .ok (some kbP, memF)) :
    kbP.user_preferences = memF.user_preferences := by
  unfold process_documents at h
  by_cases hemp : files.isEmpty = true
  · rw [if_pos hemp] at h
    simp at h
  · rw [if_neg hemp] at h
    split at h
    · cases h
    · rename_i kb memR heq
      simp only [Except.ok.injEq, Prod.mk.injEq, Option.some.injEq] at h
      obtain ⟨hkb, hmem⟩ := h
      subst hkb
      subst hmem
      rfl

def c5wKB : KnowledgeBase :=
  ⟨[⟨"doc_w5", "a.txt", "input_docs/a.txt", sentinelCategory,
     ["idea one"], ["python"], [], "2026-01-01 00:00:00"⟩], initialPrefs⟩

def c5wMem : Memory := ⟨initialPrefs, ⟨"a.txt", 1⟩⟩

/-- Witness for C5: a concrete fresh-start run whose persisted snapshot
matches the final Preference Store state. -/
theorem C5_witness : c5wKB.user_preferences = c5wMem.user_preferences :=
  C5_amended_fresh_snapshot initialMemory [("a.txt", feClean "doc_w5")] c5wKB c5wMem (by rfl)

/-! ## C6 -/

/-- The category object carries all three level fields (so the validity test
of the retry loop cannot raise `KeyError`). -/
def hasLevels (j : JObj) : Bool :=
  (lookupJ j "level1").isSome && (lookupJ j "level2").isSome && (lookupJ j "level3").isSome

/-- Claim C6, counterexample.  With a wrong-shaped extraction reply the loop
does not end by accepting the last result: the single extractor invocation
raises and the loop terminates with an uncaught error. -/
theorem C6_counterexample :
    (runRetryLoop sentinelCategory (fun _ => XReply.wrongShape) (fun _ => none) []).1 = 1
    ∧ (runRetryLoop sentinelCategory (fun _ => XReply.wrongShape) (fun _ => none) []).2 =
        .error "TypeError: extraction result lacks the expected list fields" :=
  ⟨rfl, rfl⟩

lemma retryAux_bounds (category : JObj) (xr : Nat → XReply)
    (rr : Nat → Option (List String)) (docs : List DocumentRecord) :
    ∀ fuel attempt,
      (retryAux category xr rr docs fuel attempt).1 ≤ attempt + fuel
      ∧ (1 ≤ fuel → attempt + 1 ≤ (retryAux category xr rr docs fuel attempt).1) := by
  intro fuel
  induction fuel with
  | zero =>
    intro attempt
    refine ⟨by simp [retryAux], ?_⟩
    intro h
    omega
  | succ f ihf =>
    intro attempt
    rw [retryAux]
    cases hx : extract (xr attempt) (rr attempt) docs with
    | error e => simp only []; constructor <;> [omega; exact fun _ => by omega]
    | ok ex =>
      cases hic : isCategoryInvalid category with
      | error e => simp only []; constructor <;> [omega; exact fun _ => by omega]
      | ok bad =>
        simp only []
        by_cases hneed : (bad || hasInvalidCoreIdeas ex || hasInvalidKeywords ex) = true
        · rw [if_pos hneed]
          cases f with
          | zero => simp only []; constructor <;> [omega; exact fun _ => by omega]
          | succ g =>
            simp only []
            have := ihf (attempt + 1)
            constructor
            · calc (retryAux category xr rr docs (g + 1) (attempt + 1)).1
                  ≤ attempt + 1 + (g + 1) := this.1
                _ = attempt + (g + 1 + 1) := by omega
            · intro _
              have h2 := this.2 (by omega)
              omega
        · rw [if_neg hneed]
          constructor <;> [omega; exact fun _ => by omega]

lemma isCategoryInvalid_ok_of_hasLevels (j : JObj) (h : hasLevels j = true) :
    ∃ b, isCategoryInvalid j = .ok b := by
  unfold hasLevels at h
  cases h1 : lookupJ j "level1" with
  | none => rw [h1] at h; simp at h
  | some v1 =>
    cases h2 : lookupJ j "level2" with
    | none => rw [h1, h2] at h; simp at h
    | some v2 =>
      cases h3 : lookupJ j "level3" with
      | none => rw [h1, h2, h3] at h; simp at h
      | some v3 =>
        unfold isCategoryInvalid
        rw [h1, h2, h3]
        simp only []
        by_cases b1 : (v1 == "Unclassified") = true
        · rw [if_pos b1]; exact ⟨true, rfl⟩
        · rw [if_neg b1]
          by_cases b2 : (v2 == "Unclassified") = true
          · rw [if_pos b2]; exact ⟨true, rfl⟩
          · rw [if_neg b2]; exact ⟨v3 == "Unclassified", rfl⟩

lemma retryAux_accepts (category : JObj) (xr : Nat → XReply)
    (rr : Nat → Option (List String)) (docs : List DocumentRecord)
    (hxr : ∀ i, xr i ≠ XReply.wrongShape) (b0 : Bool)
    (hic : isCategoryInvalid category = .ok b0) :
    ∀ fuel attempt, 1 ≤ fuel →
      (retryAux category xr rr docs fuel attempt).2 =
        extract (xr ((retryAux category xr rr docs fuel attempt).1 - 1))
          (rr ((retryAux category xr rr docs fuel attempt).1 - 1)) docs
      ∧ ∀ e, (retryAux category xr rr docs fuel attempt).2 ≠ .error e := by
  intro fuel
  induction fuel with
  | zero => intro attempt h; omega
  | succ f ihf =>
    intro attempt _
    rw [retryAux]
    have hok : ∃ ex, extract (xr attempt) (rr attempt) docs = .ok ex := by
      cases hxv : xr attempt with
      | wrongShape => exact absurd hxv (hxr attempt)
      | unparseable => exact ⟨_, rfl⟩
      | ok ci kw => exact ⟨_, rfl⟩
    obtain ⟨ex, hx⟩ := hok
    rw [hx, hic]
    simp only []
    by_cases hneed : (b0 || hasInvalidCoreIdeas ex || hasInvalidKeywords ex) = true
    · rw [if_pos hneed]
      cases f with
      | zero =>
        simp only []
        refine ⟨?_, ?_⟩
        · simpa [Nat.add_sub_cancel] using hx.symm
        · intro e
          simp
      | succ g =>
        simp only []
        exact ihf (attempt + 1) (by omega)
    · rw [if_neg hneed]
      refine ⟨?_, ?_⟩
      · simpa [Nat.add_sub_cancel] using hx.symm
      · intro e
        simp

/-- Claim C6, amended.  For every document that reaches the extraction
stage, the Extractor is invoked at least once and at most 3 times,
regardless of how many attempts yield sentinel output; when every
extraction reply either parses to the expected shape or degrades to the
documented sentinels (no wrong-shaped reply) and the category object
carries its three level fields, the loop ends by accepting the result of
its last invocation even if that result is still invalid.  (A wrong-shaped
reply or a category object missing a level field instead ends the loop
with an uncaught error, per the counterexample.) -/
theorem C6_amended_retry_bound (category : JObj) (xr : Nat → XReply)
    (rr : Nat → Option (List String)) (docs : List DocumentRecord) :
    (1 ≤ (runRetryLoop category xr rr docs).1 ∧ (runRetryLoop category xr rr docs).1 ≤ 3)
    ∧ ((∀ i, xr i ≠ XReply.wrongShape) → hasLevels category = true →
        (runRetryLoop category xr rr docs).2 =
          extract (xr ((runRetryLoop category xr rr docs).1 - 1))
            (rr ((runRetryLoop category xr rr docs).1 - 1)) docs
        ∧ ∀ e, (runRetryLoop category xr rr docs).2 ≠ .error e) := by
  constructor
  · have hb := retryAux_bounds category xr rr docs 3 0
    exact ⟨hb.2 (by omega), by simpa using hb.1⟩
  · intro hxr hlev
    obtain ⟨b, hb⟩ := isCategoryInvalid_ok_of_hasLevels category hlev
    exact retryAux_accepts category xr rr docs hxr b hb 3 0 (by omega)

def c6wx : Nat → XReply := fun _ => XReply.unparseable

def c6wr : Nat → Option (List String) := fun _ => none

/-- Witness for C6: with persistently sentinel-yielding extraction replies
and the sentinel category, the loop accepts the result of its last
invocation. -/
theorem C6_witness :
    (runRetryLoop sentinelCategory c6wx c6wr []).2 =
      extract (c6wx ((runRetryLoop sentinelCategory c6wx c6wr []).1 - 1))
        (c6wr ((runRetryLoop sentinelCategory c6wx c6wr []).1 - 1)) [] :=
  ((C6_amended_retry_bound sentinelCategory c6wx c6wr []).2
    (by intro i h; simp [c6wx] at h) (by decide)).1

/-! ## C8 and C9 -/

lemma reclassifyGo_not_found (fname : String) (parse : String → Except String String)
    (creply : Reply) (mem : Memory) (now : String) (kb : KnowledgeBase) :
    ∀ (docs acc : List DocumentRecord), (∀ d ∈ docs, d.filename ≠ fname) →
      reclassifyGo fname parse creply mem now kb docs acc = ⟨false, kb, false, mem⟩ := by
  intro docs
  induction docs with
  | nil => intro acc _; rfl
  | cons d rest ih =>
    intro acc hall
    rw [reclassifyGo, if_neg (hall d (by simp))]
    exact ih (acc ++ [d]) (fun e he => hall e (by simp [he]))

lemma reclassifyGo_parse_error (fname : String) (parse : String → Except String String)
    (creply : Reply) (mem : Memory) (now : String) (kb : KnowledgeBase)
    (d : DocumentRecord) (post : List DocumentRecord) (msg : String)
    (hd : d.filename = fname) (hp : parse d.path = .error msg) :
    ∀ (pre acc : List DocumentRecord), (∀ e ∈ pre, e.filename ≠ fname) →
      reclassifyGo fname parse creply mem now kb (pre ++ d :: post) acc =
        ⟨false, kb, false, mem⟩ := by
  intro pre
  induction pre with
  | nil =>
    intro acc _
    rw [List.nil_append, reclassifyGo, if_pos hd, hp]
  | cons e pre ih =>
    intro acc hall
    rw [List.cons_append, reclassifyGo, if_neg (hall e (by simp))]
    exact ih (acc ++ [e]) (fun x hx => hall x (by simp [hx]))

lemma reclassifyGo_found_ok (fname : String) (parse : String → Except String String)
    (creply : Reply) (mem : Memory) (now : String) (kb : KnowledgeBase)
    (d : DocumentRecord) (post : List DocumentRecord) (t : String)
    (hd : d.filename = fname) (hp : parse d.path = .ok t) :
    ∀ (pre acc : List DocumentRecord), (∀ e ∈ pre, e.filename ≠ fname) →
      reclassifyGo fname parse creply mem now kb (pre ++ d :: post) acc =
        ⟨true,
         ⟨(acc ++ pre) ++
            ({ d with category := (classify mem.user_preferences creply).1,
                      processed_time := now } :: post),
          kb.user_preferences⟩,
         true,
         ⟨(classify mem.user_preferences creply).2, mem.session_status⟩⟩ := by
  intro pre
  induction pre with
  | nil =>
    intro acc _
    rw [List.nil_append, reclassifyGo, if_pos hd, hp]
    simp
  | cons e pre ih =>
    intro acc hall
    rw [List.cons_append, reclassifyGo, if_neg (hall e (by simp))]
    rw [ih (acc ++ [e]) (fun x hx => hall x (by simp [hx]))]
    simp

/-- Claim C8 (confirmed).  When `reclassify_document` is called with a
filename matching no record, or the first matching record's stored path
fails to re-parse, it returns a reported error, the documents list (indeed
the whole knowledge base), the preference store and the persisted state are
completely untouched. -/
theorem C8_error_paths_no_mutation (kb : KnowledgeBase) (fname : String)
    (parse : String → Except String String) (creply : Reply) (mem : Memory) (now : String) :
    ((∀ d ∈ kb.documents, d.filename ≠ fname) →
      reclassify_document kb fname parse creply mem now = ⟨false, kb, false, mem⟩)
    ∧ (∀ (pre : List DocumentRecord) (d : DocumentRecord) (post : List DocumentRecord)
        (msg : String), kb.documents = pre ++ d :: post →
        (∀ e ∈ pre, e.filename ≠ fname) → d.filename = fname →
        parse d.path = .error msg →
        reclassify_document kb fname parse creply mem now = ⟨false, kb, false, mem⟩) := by
  constructor
  · intro hall
    exact reclassifyGo_not_found fname parse creply mem now kb kb.documents [] hall
  · intro pre d post msg hdocs hpre hd hp
    unfold reclassify_document
    rw [hdocs]
    exact reclassifyGo_parse_error fname parse creply mem now kb d post msg hd hp pre [] hpre

def c8doc : DocumentRecord :=
  ⟨"doc_8", "a.txt", "input_docs/a.txt", sentinelCategory, ["idea"], ["kw"], [], "t"⟩

/-- Witness for C8: `reclassify` of `missing.txt` against a non-empty
knowledge base fails and changes nothing. -/
theorem C8_witness :
    reclassify_document ⟨[c8doc], initialPrefs⟩ "missing.txt" (fun _ => .ok "text")
      Reply.noText initialMemory "now" =
      ⟨false, ⟨[c8doc], initialPrefs⟩, false, initialMemory⟩ :=
  (C8_error_paths_no_mutation ⟨[c8doc], initialPrefs⟩ "missing.txt" (fun _ => .ok "text")
    Reply.noText initialMemory "now").1 (by decide)

/-- Claim C9 (confirmed).  A successful reclassification overwrites exactly
the `category` and `processed_time` fields of the first record carrying the
target filename: its `id`, `filename`, `path`, `core_ideas`, `keywords` and
`related_docs` are untouched, every other record and the preference snapshot
are unchanged, and nothing about extraction or relations is recomputed (the
new record is the old one with only those two fields replaced by the fresh
classification and timestamp). -/
theorem C9_reclassify_frame (kb : KnowledgeBase) (fname : String)
    (parse : String → Except String String) (creply : Reply) (mem : Memory) (now : String)
    (pre : List DocumentRecord) (d : DocumentRecord) (post : List DocumentRecord) (t : String)
    (hdocs : kb.documents = pre ++ d :: post)
    (hpre : ∀ e ∈ pre, e.filename ≠ fname)
    (hd : d.filename = fname)
    (hp : parse d.path = .ok t) :
    reclassify_document kb fname parse creply mem now =
      ⟨true,
       ⟨pre ++ ({ d with category := (classify mem.user_preferences creply).1,
                         processed_time := now } :: post),
        kb.user_preferences⟩,
       true,
       ⟨(classify mem.user_preferences creply).2, mem.session_status⟩⟩
    ∧ ({ d with category := (classify mem.user_preferences creply).1,
                processed_time := now } : DocumentRecord).id = d.id
    ∧ ({ d with category := (classify mem.user_preferences creply).1,
                processed_time := now } : DocumentRecord).filename = d.filename
    ∧ ({ d with category := (classify mem.user_preferences creply).1,
                processed_time := now } : DocumentRecord).path = d.path
    ∧ ({ d with category := (classify mem.user_preferences creply).1,
                processed_time := now } : DocumentRecord).core_ideas = d.core_ideas
    ∧ ({ d with category := (classify mem.user_preferences creply).1,
                processed_time := now } : DocumentRecord).keywords = d.keywords
    ∧ ({ d with category := (classify mem.user_preferences creply).1,
                processed_time := now } : DocumentRecord).related_docs = d.related_docs := by
  refine ⟨?_, rfl, rfl, rfl, rfl, rfl, rfl⟩
  unfold reclassify_document
  rw [hdocs]
  simpa using reclassifyGo_found_ok fname parse creply mem now kb d post t hd hp pre [] hpre

def c9doc : DocumentRecord :=
  ⟨"doc_9", "a.txt", "input_docs/a.txt",
   [("level1", "Technology"), ("level2", "AI"), ("level3", "Agents")],
   ["idea"], ["kw"], ["doc_8"], "t"⟩

/-- Witness for C9: reclassifying the only record of a concrete knowledge
base replaces exactly its category and timestamp. -/
theorem C9_witness :
    reclassify_document ⟨[c9doc], initialPrefs⟩ "a.txt" (fun _ => .ok "text")
      Reply.noText initialMemory "now" =
      ⟨true,
       ⟨[{ c9doc with category := sentinelCategory, processed_time := "now" }], initialPrefs⟩,
       true, ⟨initialPrefs, initialMemory.session_status⟩⟩ :=
  (C9_reclassify_frame ⟨[c9doc], initialPrefs⟩ "a.txt" (fun _ => .ok "text")
    Reply.noText initialMemory "now" [] c9doc [] "text" rfl (by simp) rfl rfl).1


/-! ## C10 -/

lemma alookup?_cons (key : String) (v : List String) (m : List (String × List String))
    (k : String) :
    alookup? ((key, v) :: m) k = if key = k then some v else alookup? m k := by
  unfold alookup?
  by_cases h : key = k
  · rw [List.find?_cons_of_pos _ (by simpa using h), if_pos h]
    rfl
  · rw [List.find?_cons_of_neg _ (by simpa using h), if_neg h]

lemma alookup?_map_upd (l2v l3v : String) :
    ∀ (m : List (String × List String)) (k : String),
      alookup? (m.map (fun kv =>
        if kv.1 == l2v then (kv.1, if l3v ∈ kv.2 then kv.2 else kv.2 ++ [l3v]) else kv)) k
      = if k = l2v then
          (alookup? m k).map (fun v => if l3v ∈ v then v else v ++ [l3v])
        else alookup? m k := by
  intro m
  induction m with
  | nil =>
    intro k
    by_cases hk : k = l2v <;> simp [alookup?, hk]
  | cons kv m ih =>
    intro k
    obtain ⟨key, v⟩ := kv
    simp only [List.map_cons]
    by_cases hkl : key = l2v
    · rw [if_pos (show (key == l2v) = true by simp [hkl])]
      rw [alookup?_cons, alookup?_cons]
      by_cases hkey : key = k
      · have hk : k = l2v := by rw [← hkey]; exact hkl
        rw [if_pos hkey, if_pos hk, if_pos hkey]
        rfl
      · have hk : ¬ k = l2v := fun h => hkey (hkl.trans h.symm)
        rw [if_neg hkey, if_neg hk, if_neg hkey, ih k, if_neg hk]
    · rw [if_neg (show ¬ (key == l2v) = true by simp [hkl])]
      rw [alookup?_cons, alookup?_cons]
      by_cases hkey : key = k
      · have hk : ¬ k = l2v := fun h => hkl (hkey.trans h)
        rw [if_pos hkey, if_neg hk, if_pos hkey]
      · rw [if_neg hkey, ih k]
        by_cases hk : k = l2v
        · rw [if_pos hk, if_pos hk, if_neg hkey]
        · rw [if_neg hk, if_neg hk, if_neg hkey]

lemma alookup?_append (m m' : List (String × List String)) (k : String) :
    alookup? (m ++ m') k =
      match alookup? m k with
      | some v => some v
      | none => alookup? m' k := by
  induction m with
  | nil => simp [alookup?]
  | cons kv m ih =>
    obtain ⟨key, v⟩ := kv
    rw [List.cons_append, alookup?_cons, alookup?_cons]
    by_cases hkey : key = k
    · simp [hkey]
    · simp [hkey, ih]

lemma pl3Get_registerPref (prefs : Preferences) (l2v l3v : String) (k : String) :
    pl3Get (registerPref prefs l2v l3v) k =
      if k = l2v then
        (if l3v ∈ pl3Get prefs l2v then pl3Get prefs l2v else pl3Get prefs l2v ++ [l3v])
      else pl3Get prefs k := by
  unfold registerPref pl3Get
  simp only []
  by_cases hpres : ((prefs.preferred_level3.find? (fun kv => kv.1 == l2v)).isSome) = true
  · rw [if_pos hpres, alookup?_map_upd]
    by_cases hk : k = l2v
    · subst hk
      obtain ⟨pr, hfind⟩ := Option.isSome_iff_exists.mp hpres
      have hal : alookup? prefs.preferred_level3 k = some pr.2 := by
        unfold alookup?
        rw [hfind]
        rfl
      rw [if_pos rfl, if_pos rfl, hal]
      simp
    · rw [if_neg hk, if_neg hk]
  · rw [if_neg hpres]
    have hnone : prefs.preferred_level3.find? (fun kv => kv.1 == l2v) = none := by
      cases hf : prefs.preferred_level3.find? (fun kv => kv.1 == l2v) with
      | none => rfl
      | some p => rw [hf] at hpres; simp at hpres
    have halnone : alookup? prefs.preferred_level3 l2v = none := by
      unfold alookup?
      rw [hnone]
      rfl
    rw [List.map_append, alookup?_append, alookup?_map_upd]
    by_cases hk : k = l2v
    · subst hk
      rw [if_pos rfl, if_pos rfl, halnone]
      simp [alookup?_cons, halnone]
    · rw [if_neg hk, if_neg hk]
      have hne : ¬ l2v = k := fun h => hk h.symm
      cases hm : alookup? prefs.preferred_level3 k with
      | some v => simp
      | none => simp [alookup?_cons, hne, alookup?]

lemma pl3Sub_refl (p : Preferences) : pl3Sub p p := fun _ _ h => h

lemma pl3Sub_trans {p q r : Preferences} (h1 : pl3Sub p q) (h2 : pl3Sub q r) :
    pl3Sub p r := fun k x hx => h2 k x (h1 k x hx)

lemma pl3Sub_registerPref (p : Preferences) (l2v l3v : String) :
    pl3Sub p (registerPref p l2v l3v) := by
  intro k x hx
  rw [pl3Get_registerPref]
  by_cases hk : k = l2v
  · subst hk
    rw [if_pos rfl]
    by_cases hmem : l3v ∈ pl3Get p k
    · rw [if_pos hmem]; exact hx
    · rw [if_neg hmem]; exact List.mem_append_left _ hx
  · rw [if_neg hk]; exact hx

lemma pl3Sub_classify (p : Preferences) (r : Reply) : pl3Sub p (classify p r).2 := by
  cases r with
  | noText => exact pl3Sub_refl p
  | directOther => exact pl3Sub_refl p
  | failed => exact pl3Sub_refl p
  | recovered j => exact pl3Sub_refl p
  | direct j =>
    simp only [classify]
    split
    · split
      · exact pl3Sub_registerPref p _ _
      · exact pl3Sub_refl p
    · exact pl3Sub_refl p

lemma runFiles_pl3Sub (files : List (String × FileEnv)) :
    ∀ kb mem kb' mem', runFiles files kb mem = .ok (kb', mem') →
      pl3Sub mem.user_preferences mem'.user_preferences := by
  induction files with
  | nil =>
    intro kb mem kb' mem' h
    simp only [runFiles, Except.ok.injEq, Prod.mk.injEq] at h
    obtain ⟨_, h2⟩ := h
    subst h2
    exact pl3Sub_refl _
  | cons f rest ih =>
    intro kb mem kb' mem' h
    obtain ⟨fname, fe⟩ := f
    simp only [runFiles] at h
    by_cases hdup : (kb.documents.any (fun d => d.filename == fname)) = true
    · rw [if_pos hdup] at h
      exact ih kb mem kb' mem' h
    · rw [if_neg hdup] at h
      cases hp : fe.parse with
      | error e =>
        rw [hp] at h
        exact ih kb mem kb' mem' h
      | ok t =>
        rw [hp] at h
        set cp := classify mem.user_preferences fe.creply with hcp
        cases hr : (runRetryLoop cp.1 fe.xreplies fe.relReplies kb.documents).2 with
        | error e => rw [hr] at h; cases h
        | ok ex =>
          rw [hr] at h
          have step := ih _ _ _ _ h
          refine pl3Sub_trans ?_ step
          rw [hcp]
          exact pl3Sub_classify mem.user_preferences fe.creply

/-- Claim C10 (confirmed).  The `preferred_level3` map only ever grows:
(1) each classification call preserves every recorded `level2 -> level3`
entry; (2) a successful registration rewrites the target list to itself when
the level3 name is already present (set semantics, added at most once) and
appends it once otherwise, leaving every other key untouched; (3) across a
whole processing run, the set of names under any fixed level2 key in the
resulting Preference Store state is a superset of what it was before the
run. -/
theorem C10_preferred_level3_monotone :
    (∀ (prefs : Preferences) (reply : Reply), pl3Sub prefs (classify prefs reply).2)
    ∧ (∀ (prefs : Preferences) (l2v l3v k : String),
        pl3Get (registerPref prefs l2v l3v) k =
          if k = l2v then
            (if l3v ∈ pl3Get prefs l2v then pl3Get prefs l2v
             else pl3Get prefs l2v ++ [l3v])
          else pl3Get prefs k)
    ∧ (∀ (files : List (String × FileEnv)) (kb : KnowledgeBase) (mem : Memory)
        (kb' : KnowledgeBase) (mem' : Memory),
        runFiles files kb mem = .ok (kb', mem') →
        pl3Sub mem.user_preferences mem'.user_preferences) :=
  ⟨pl3Sub_classify, pl3Get_registerPref,
   fun files kb mem kb' mem' h => runFiles_pl3Sub files kb mem kb' mem' h⟩

def c10prefs : Preferences :=
  ⟨["Technology"], [("Programming Languages", ["Python"])]⟩

def c10kb : KnowledgeBase :=
  ⟨[⟨"doc_10", "a.txt", "input_docs/a.txt", sentinelCategory,
     ["idea one"], ["python"], [], "2026-01-01 00:00:00"⟩], c10prefs⟩

/-- Witness for C10: across a concrete one-file run, a previously recorded
`Programming Languages -> Python` preference is still recorded afterwards. -/
theorem C10_witness :
    "Python" ∈ pl3Get ((⟨c10prefs, ⟨"a.txt", 1⟩⟩ : Memory).user_preferences)
      "Programming Languages" :=
  (C10_preferred_level3_monotone.2.2 [("a.txt", feClean "doc_10")]
    ⟨[], c10prefs⟩ ⟨c10prefs, ⟨"", 0⟩⟩ c10kb ⟨c10prefs, ⟨"a.txt", 1⟩⟩ (by rfl))
    "Programming Languages" "Python" (by decide)
